import Mathlib

/-!
Verification of the AppLabs2 job-orchestration core (src/server.ts and the
verifier modules) against its natural-language specification.

The TypeScript code is shallowly embedded: pure scoring functions become Lean
functions on rationals, the stateful orchestration routine `processJob` becomes
an explicit state-passing function over a job/control state, with external API
calls (pause / continue / accept / cancel endpoints) modelled as actions applied
at the orchestrator's suspension points, and collaborator calls (researcher,
generator, tester, verifier, deployer) modelled as `Except`-valued results read
from an environment.  JavaScript numbers are modelled as rationals; the NaN
produced by a 0/0 division is modelled as `Option.none`.
-/

/-- Association-list lookup, modelling a JS object / Map read by key. -/
def alookup {α : Type} (l : List (String × α)) (k : String) : Option α :=
  (l.find? (fun p => p.1 = k)).map (·.2)

/-- Association-list insert-or-replace, modelling `map.set(k, v)` /
object-key assignment. -/
def upsert {α : Type} (l : List (String × α)) (k : String) (v : α) :
    List (String × α) :=
  (k, v) :: l.filter (fun p => p.1 ≠ k)

/-! ## Scoring aggregators

From `src/verifier/index.ts` (VerifierModule, pre-deploy feature-presence
scoring) and `src/verifier/browser-verifier.ts` (BrowserVerifier, post-deploy
live-browser scoring).
-/

namespace VerifierModule

/-- The weight table `CORE_FEATURE_WEIGHTS` from src/verifier/index.ts. -/
def CORE_FEATURE_WEIGHTS : List (String × ℚ) :=
  [("landing_page", 10), ("navigation", 8), ("list_view", 10),
   ("detail_view", 8), ("create_form", 10), ("edit_form", 8),
   ("delete_action", 5), ("search", 8), ("responsive_design", 5),
   ("loading_states", 3), ("error_handling", 5), ("empty_states", 3),
   ("api_integration", 10), ("mock_data", 7)]

/-- A feature check produced by `checkFeatures` (interface FeatureCheck). -/
structure FeatureCheck where
  feature : String
  required : Bool
  implemented : Bool
  score : ℚ
  notes : String
deriving DecidableEq

/-- The weight of a feature: `CORE_FEATURE_WEIGHTS[check.feature] || 5`.
All table entries are positive, so the JS falsy-fallback coincides with the
lookup-miss fallback. -/
def featureWeight (f : String) : ℚ :=
  (alookup CORE_FEATURE_WEIGHTS f).getD 5

end VerifierModule

/-- JavaScript `Math.round` on a finite number: round half toward positive
infinity. -/
def jsRound (x : ℚ) : ℤ := ⌊x + 1 / 2⌋

namespace VerifierModule

/-- The `calculateScore` method of VerifierModule: one pass accumulating
`totalWeight` and `weightedScore`, then `Math.round((weightedScore /
totalWeight) * 100)`.  An empty check list yields `totalWeight = 0`, and in
JS `0 / 0` is NaN and `Math.round(NaN)` is NaN, modelled as `none`. -/
def calculateScore (checks : List FeatureCheck) : Option ℤ :=
  let acc := checks.foldl
    (fun (a : ℚ × ℚ) c =>
      let w := featureWeight c.feature
      (a.1 + w, a.2 + c.score / 100 * w))
    (0, 0)
  if acc.1 = 0 then none
  else some (jsRound (acc.2 / acc.1 * 100))

end VerifierModule

/-- The parity threshold `PARITY_THRESHOLD` shared by both verifiers. -/
def PARITY_THRESHOLD : ℤ := 90

/-- JavaScript comparison `overallScore >= threshold` where `overallScore` may
be NaN (`none`): any comparison with NaN is false. -/
def jsPassesThreshold (overall : Option ℤ) (threshold : ℤ) : Bool :=
  match overall with
  | none => false
  | some s => s ≥ threshold

/-- Spec-side definition following the spec text word for word: the aggregate
is `round(100 * Σ(score_i/100 * weight_i) / Σ(weight_i))`, with weights from
the pre-deploy core feature table. -/
def specAggregate (checks : List VerifierModule.FeatureCheck) : ℤ :=
  round ((100 : ℚ) *
      (checks.map (fun c => c.score / 100 * VerifierModule.featureWeight c.feature)).sum /
      (checks.map (fun c => VerifierModule.featureWeight c.feature)).sum)

namespace BrowserVerifier

/-- A browser check (interface BrowserCheck).  The TS `category` field is a
union of five string literals; unions are erased at runtime, so it is embedded
as a string. -/
structure BrowserCheck where
  name : String
  category : String
  passed : Bool
  score : ℚ
  details : String
deriving DecidableEq

/-- The category weight table local to `BrowserVerifier.calculateScore`. -/
def browserWeights : List (String × ℚ) :=
  [("ui", 20), ("navigation", 15), ("crud", 25), ("forms", 20), ("search", 10)]

/-- The weight of a browser-check category: `weights[check.category] || 10`. -/
def categoryWeight (c : String) : ℚ :=
  (alookup browserWeights c).getD 10

/-- The `calculateScore` method of BrowserVerifier: same accumulation shape as
the pre-deploy aggregator, but over the category weight table with fallback
weight 10. -/
def calculateScore (checks : List BrowserCheck) : Option ℤ :=
  let acc := checks.foldl
    (fun (a : ℚ × ℚ) c =>
      let w := categoryWeight c.category
      (a.1 + w, a.2 + c.score / 100 * w))
    (0, 0)
  if acc.1 = 0 then none
  else some (jsRound (acc.2 / acc.1 * 100))

/-- Spec-side variant of the browser aggregator, following the spec claim that
the fallback weight for an unlisted category is 5 in both contexts. -/
def calculateScoreSpecFallback5 (checks : List BrowserCheck) : Option ℤ :=
  let acc := checks.foldl
    (fun (a : ℚ × ℚ) c =>
      let w := (alookup browserWeights c.category).getD 5
      (a.1 + w, a.2 + c.score / 100 * w))
    (0, 0)
  if acc.1 = 0 then none
  else some (jsRound (acc.2 / acc.1 * 100))

end BrowserVerifier

/-! ### Helper lemmas about the aggregators -/

/-- Every weight in the core feature table is positive. -/
lemma coreWeights_pos :
    ∀ p ∈ VerifierModule.CORE_FEATURE_WEIGHTS, (0 : ℚ) < p.2 := by decide

/-- The per-feature weight is always positive. -/
lemma featureWeight_pos (f : String) : 0 < VerifierModule.featureWeight f := by
  unfold VerifierModule.featureWeight
  cases h : alookup VerifierModule.CORE_FEATURE_WEIGHTS f with
  | none => norm_num
  | some v =>
    have hmem : ∃ p ∈ VerifierModule.CORE_FEATURE_WEIGHTS, p.2 = v := by
      unfold alookup at h
      rcases Option.map_eq_some'.mp h with ⟨p, hp, hv⟩
      exact ⟨p, List.mem_of_find?_eq_some hp, hv⟩
    rcases hmem with ⟨p, hp, hv⟩
    simpa [hv] using coreWeights_pos p hp

/-- The pair-accumulating fold of `calculateScore` computes the two sums. -/
lemma score_foldl_eq (w : VerifierModule.FeatureCheck → ℚ)
    (l : List VerifierModule.FeatureCheck) (a b : ℚ) :
    l.foldl (fun (a : ℚ × ℚ) c => (a.1 + w c, a.2 + c.score / 100 * w c)) (a, b)
      = (a + (l.map w).sum, b + (l.map (fun c => c.score / 100 * w c)).sum) := by
  induction l generalizing a b with
  | nil => simp
  | cons c t ih => simp [ih]; constructor <;> ring

/-- For a non-empty check list the code's aggregate agrees with the spec
formula. -/
lemma calculateScore_eq_specAggregate
    (checks : List VerifierModule.FeatureCheck) (h : checks ≠ []) :
    VerifierModule.calculateScore checks = some (specAggregate checks) := by
  unfold VerifierModule.calculateScore specAggregate
  rw [score_foldl_eq (fun c => VerifierModule.featureWeight c.feature)]
  have hpos : 0 < (checks.map (fun c => VerifierModule.featureWeight c.feature)).sum := by
    apply List.sum_pos
    · intro a ha
      rcases List.mem_map.mp ha with ⟨c, _, rfl⟩
      exact featureWeight_pos c.feature
    · simpa using h
  have hne : (checks.map (fun c => VerifierModule.featureWeight c.feature)).sum ≠ 0 :=
    ne_of_gt hpos
  rw [round_eq]
  unfold jsRound
  simp only [zero_add, if_neg hne]
  congr 2
  ring

/-! ### Claims C4, C5, C6 -/

/-- C4: for every list of feature checks, the pre-deploy aggregator
`VerifierModule.calculateScore` returns
round(100 * sum(score_i/100 * weight_i) / sum(weight_i)) with weights from
the core feature weight table; for the two checks
(api_integration, score 100, weight 10) and (search, score 0, weight 8) it
returns 56, which does not pass the 90 threshold. -/
theorem claim_C4 :
    (∀ checks, checks ≠ [] →
      VerifierModule.calculateScore checks = some (specAggregate checks)) ∧
    VerifierModule.calculateScore
      [⟨"api_integration", true, true, 100, ""⟩, ⟨"search", true, false, 0, ""⟩]
      = some 56 ∧
    jsPassesThreshold (some 56) PARITY_THRESHOLD = false := by
  refine ⟨calculateScore_eq_specAggregate, ?_, rfl⟩
  simp [VerifierModule.calculateScore, VerifierModule.featureWeight,
    VerifierModule.CORE_FEATURE_WEIGHTS, alookup, jsRound]
  norm_num

/-- C4 witness: the general formula applied to a concrete one-check list. -/
theorem claim_C4_witness :
    VerifierModule.calculateScore [⟨"landing_page", true, true, 50, ""⟩]
      = some (specAggregate [⟨"landing_page", true, true, 50, ""⟩]) :=
  claim_C4.1 [⟨"landing_page", true, true, 50, ""⟩] (by decide)

/-- C5: on the empty check set the aggregator does not return 0: the code
computes Math.round((0 / 0) * 100), which is NaN in JavaScript (modelled as
`none`).  `passesThreshold` is still false (NaN >= 90 is false) and no
exception is raised, but the claimed score 0 is wrong. -/
theorem claim_C5_code_bug :
    VerifierModule.calculateScore [] = none ∧
    jsPassesThreshold (VerifierModule.calculateScore []) PARITY_THRESHOLD
      = false := by
  constructor <;> rfl

/-- C6 counterexample: a check category unknown to the browser weight table
contributes weight 10, not the claimed fallback 5: with checks
(ui, score 100) and (unlisted, score 0) the code yields round(100*20/30) = 67,
whereas a fallback of 5 would yield round(100*20/25) = 80. -/
theorem claim_C6_counterexample :
    BrowserVerifier.categoryWeight "video_chat" = 10 ∧
    BrowserVerifier.calculateScore
      [⟨"Page Load", "ui", true, 100, ""⟩, ⟨"Extra", "video_chat", false, 0, ""⟩]
      = some 67 ∧
    BrowserVerifier.calculateScoreSpecFallback5
      [⟨"Page Load", "ui", true, 100, ""⟩, ⟨"Extra", "video_chat", false, 0, ""⟩]
      = some 80 := by
  refine ⟨rfl, ?_, ?_⟩ <;>
    (simp [BrowserVerifier.calculateScore,
       BrowserVerifier.calculateScoreSpecFallback5,
       BrowserVerifier.categoryWeight, BrowserVerifier.browserWeights,
       alookup, jsRound];
     norm_num)

/-- C6 amended: the pre-deploy aggregator falls back to weight 5 for a feature
key missing from its table, while the post-deploy browser aggregator falls
back to weight 10 for a category missing from its table. -/
theorem claim_C6_amended :
    (∀ f, alookup VerifierModule.CORE_FEATURE_WEIGHTS f = none →
      VerifierModule.featureWeight f = 5) ∧
    (∀ c, alookup BrowserVerifier.browserWeights c = none →
      BrowserVerifier.categoryWeight c = 10) := by
  constructor <;> intro x h <;>
    simp [VerifierModule.featureWeight, BrowserVerifier.categoryWeight, h]

/-- C6 witness: the two fallbacks evaluated at concrete unlisted keys. -/
theorem claim_C6_witness :
    VerifierModule.featureWeight "custom_dashboard" = 5 ∧
    BrowserVerifier.categoryWeight "video_chat" = 10 :=
  ⟨claim_C6_amended.1 "custom_dashboard" (by decide),
   claim_C6_amended.2 "video_chat" (by decide)⟩

/-! ## Job orchestration state machine

From `src/server.ts`: the job store, the per-job control signals
(`jobControls`), the HTTP control endpoints, and the background routine
`processJob`.  A single job's run is modelled as a deterministic function of
an environment carrying the collaborator results and a schedule of external
endpoint calls; endpoint calls are applied at the orchestrator's suspension
points (`await`s), which is where they interleave in the single-threaded
event loop.
-/

namespace Server

/-- The `status` union of the Job interface. -/
inductive Status where
  | pending | researching | generating | testing | fixing | verifying
  | iterating | deploying | complete | failed | paused | cancelled
deriving DecidableEq

/-- A `jobControls` entry: `{ paused, accepted, cancelled }`. -/
structure Control where
  paused : Bool
  accepted : Bool
  cancelled : Bool
deriving DecidableEq

/-- The default control value `{ paused: false, accepted: false,
cancelled: false }` used by `jobControls.get(jobId) || {...}`. -/
def defaultControl : Control := ⟨false, false, false⟩

/-- The result of a generator call, reduced to the fields the orchestrator
reads (`files.length`). -/
structure GenerationResult where
  filesCount : ℕ
deriving DecidableEq

/-- The result of a tester call, reduced to the field the orchestrator reads. -/
structure TestResult where
  passed : Bool
deriving DecidableEq

/-- A parity report as consumed by the iteration loop (`overallScore`,
`passesThreshold`, `missingFeatures`); scores are environment inputs here,
produced by the verifier collaborator. -/
structure ParityReport where
  overallScore : ℚ
  passesThreshold : Bool
  missingFeatures : List String
deriving DecidableEq

/-- The result of a deployer call, reduced to whether `renderUrls.web` is
present (which gates the post-deploy stages). -/
structure DeployResult where
  hasWebUrl : Bool
deriving DecidableEq

/-- An IterationHistory entry as pushed by `processJob` (the `completedAt`
wall-clock timestamp is not modelled). -/
structure IterationHistory where
  version : ℕ
  parityScore : ℚ
  filesGenerated : ℕ
  testsPassed : Bool
  fixesApplied : ℕ
  missingFeatures : List String
deriving DecidableEq

/-- A Job record, restricted to the fields the orchestrator and the control
endpoints read or write.  Optional TS fields that start `undefined` are
`Option`s; `iterations` starts as the empty list (the code lazily initialises
it to `[]` before the first push). -/
structure Job where
  status : Status
  iterationCount : Option ℕ
  maxIterations : Option ℕ
  iterations : List IterationHistory
  error : Option String
  pausedFlag : Bool
  acceptedAt : Bool
  analysisSet : Bool
  generation : Option GenerationResult
  tests : Option TestResult
  fixes : Option ℕ
  parity : Option ParityReport
  deployment : Option DeployResult
  differentiationSet : Bool
deriving DecidableEq

/-- A freshly created job (`status: 'pending'`, everything else unset). -/
def initialJob : Job :=
  { status := .pending, iterationCount := none, maxIterations := none,
    iterations := [], error := none, pausedFlag := false, acceptedAt := false,
    analysisSet := false, generation := none, tests := none, fixes := none,
    parity := none, deployment := none, differentiationSet := false }

/-- The run state of one job: the Job record, this job's `jobControls` entry
(`none` when absent from the map), whether its `jobAbortControllers` entry is
present, the ordered list of values assigned to `job.status` (for observing
transitions), and the index of the next suspension point. -/
structure RState where
  job : Job
  control : Option Control
  abortCtrl : Bool
  trace : List Status
  t : ℕ
deriving DecidableEq

/-- An external control-endpoint call that can occur while the job's task is
suspended: POST pause / continue / accept / cancel on this job's id. -/
inductive ExtAction where
  | pause | cont | accept | cancel
deriving DecidableEq

/-- Statuses the cancel endpoint treats as finished:
`['complete', 'failed', 'cancelled'].includes(job.status)`. -/
def isTerminal : Status → Bool
  | .complete | .failed | .cancelled => true
  | _ => false

/-- The effect of one endpoint call on the job's state, as implemented by the
Express handlers.  pause/continue/accept have no terminal-status guard; cancel
rejects finished jobs and otherwise sets the cancelled signal, aborts the
abort-controller (whose signal no collaborator consumes, hence no further
effect), and writes `status = 'cancelled'`, `error = 'Cancelled by user'`. -/
def applyAction (a : ExtAction) (st : RState) : RState :=
  match a with
  | .pause =>
    let c := st.control.getD defaultControl
    { st with control := some { c with paused := true },
              job := { st.job with pausedFlag := true } }
  | .cont =>
    let c := st.control.getD defaultControl
    { st with control := some { c with paused := false },
              job := { st.job with pausedFlag := false } }
  | .accept =>
    let c := st.control.getD defaultControl
    { st with control := some { c with accepted := true },
              job := { st.job with acceptedAt := true } }
  | .cancel =>
    if isTerminal st.job.status then st
    else
      let c := st.control.getD defaultControl
      { st with
          control := some { c with cancelled := true }
          job := { st.job with
                     status := .cancelled
                     error := some "Cancelled by user" }
          trace := st.trace ++ [Status.cancelled] }

/-- The environment of one `processJob` run: collaborator outcomes per
iteration pass, the one-shot research and deploy outcomes, the best-effort
post-deploy outcomes, and the schedule of external endpoint calls (the action,
if any, arriving while the task is suspended at its k-th `await`). -/
structure PassEnv where
  gen : Except String GenerationResult
  test : Except String TestResult
  fixes : Except String ℕ
  retest : Except String TestResult
  verify : Except String ParityReport

/-- Environment for a whole run. -/
structure Env where
  research : Except String Unit
  targetUrl : Bool
  passes : ℕ → PassEnv
  deploy : Except String DeployResult
  browserVerify : Except String ParityReport
  diffCheck : Except String Unit
  sched : ℕ → Option ExtAction

/-- Assign `job.status` (via `updateJob`), recording the transition. -/
def setStatus (st : RState) (s : Status) : RState :=
  { st with job := { st.job with status := s }, trace := st.trace ++ [s] }

/-- One suspension point: the action scheduled for this `await` (if any) runs
while the task is parked, then the task resumes. -/
def awaitPoint (env : Env) (st : RState) : RState :=
  let st' := match env.sched st.t with
    | some a => applyAction a st
    | none => st
  { st' with t := st.t + 1 }

/-- The helper `checkCancelled`: `jobControls.get(jobId)?.cancelled ?? false`. -/
def checkCancelled (st : RState) : Bool :=
  (st.control.map (·.cancelled)).getD false

/-- The accepted flag as read by the loop head (`control?.accepted`). -/
def acceptedFlag (st : RState) : Bool :=
  (st.control.map (·.accepted)).getD false

/-- The pause-wait guard `control?.paused && !control?.accepted &&
!control?.cancelled` over the current control entry. -/
def pausedGuard (st : RState) : Bool :=
  ((st.control.map (·.paused)).getD false)
    && !(acceptedFlag st) && !(checkCancelled st)

/-- The inner busy-wait: while paused (and neither accepted nor cancelled),
set status to 'paused', sleep 2 s (a suspension point), and re-check.  The
fuel bounds the number of poll cycles; `none` means the job is still parked
in the wait when the fuel runs out. -/
def pauseWait (env : Env) : ℕ → RState → Option RState
  | 0, st => if pausedGuard st then none else some st
  | fuel + 1, st =>
    if pausedGuard st then
      let st := setStatus st .paused
      let st := awaitPoint env st
      if pausedGuard st then pauseWait env fuel st else some st
    else some st

/-- Stage 4 of a pass: `if (!tests.passed)` run `fixBugs` then re-test,
recording `fixes` and the re-test result on the job. -/
def fixPhase (env : Env) (passIdx : ℕ) (tests : TestResult) (st : RState) :
    RState × Option String :=
  if tests.passed then (st, none)
  else
    let st := setStatus st .fixing
    let st := awaitPoint env st
    match (env.passes passIdx).fixes with
    | .error m => (st, some m)
    | .ok nf =>
      let st := { st with job := { st.job with fixes := some nf } }
      let st := awaitPoint env st
      match (env.passes passIdx).retest with
      | .error m => (st, some m)
      | .ok re => ({ st with job := { st.job with tests := some re } }, none)

/-- Record an IterationHistory entry (lines 522-535 of server.ts), reading the
file, test and fix data back off the Job record. -/
def pushHistory (st : RState) (version : ℕ) (par : ParityReport) : RState :=
  let j := st.job
  let entry : IterationHistory :=
    { version := version
      parityScore := par.overallScore
      filesGenerated := (j.generation.map (·.filesCount)).getD 0
      testsPassed := (j.tests.map (·.passed)).getD false
      fixesApplied := j.fixes.getD 0
      missingFeatures := par.missingFeatures.take 5 }
  { st with job := { j with iterations := j.iterations ++ [entry] } }

/-- How one pass of the iteration loop ends. -/
inductive LoopSig where
  | thrown (m : String)
  | brk
  | next
deriving DecidableEq

/-- One pass of the iteration loop (lines 457-554 of server.ts), starting at
the post-pause cancellation check; `passIdx` is the value of `iteration`
before its increment, so the pass consumes `env.passes passIdx` and records
version `passIdx + 1`. -/
def passBody (env : Env) (passIdx : ℕ) (st : RState) : RState × LoopSig :=
  if checkCancelled st then (st, .thrown "Cancelled") else
  let v := passIdx + 1
  let st := { st with job := { st.job with iterationCount := some v } }
  let st := setStatus st (if v = 1 then .generating else .iterating)
  let st := awaitPoint env st
  match (env.passes passIdx).gen with
  | .error m => (st, .thrown m)
  | .ok gen =>
    let st := { st with job := { st.job with generation := some gen } }
    if checkCancelled st then (st, .thrown "Cancelled") else
    let st := setStatus st .testing
    let st := awaitPoint env st
    match (env.passes passIdx).test with
    | .error m => (st, .thrown m)
    | .ok tests =>
      let st := { st with job := { st.job with tests := some tests } }
      if checkCancelled st then (st, .thrown "Cancelled") else
      let fr := fixPhase env passIdx tests st
      match fr.2 with
      | some m => (fr.1, .thrown m)
      | none =>
        let st := fr.1
        if checkCancelled st then (st, .thrown "Cancelled") else
        let st := setStatus st .verifying
        let st := awaitPoint env st
        match (env.passes passIdx).verify with
        | .error m => (st, .thrown m)
        | .ok par =>
          let st := { st with job := { st.job with parity := some par } }
          let st := pushHistory st v par
          if par.passesThreshold then (st, .brk) else (st, .next)

/-- `MAX_ITERATIONS` from server.ts. -/
def MAX_ITERATIONS : ℕ := 5

/-- The iteration loop `while (iteration < MAX_ITERATIONS)`, with
`remaining = MAX_ITERATIONS - iteration` as the structural measure.  Each
round performs, in source order: the cancellation check, the accepted check
(break), the pause wait, then the pass body. -/
def loopGo (env : Env) (fuel : ℕ) :
    ℕ → ℕ → RState → Option (RState × Option String)
  | 0, _, st => some (st, none)
  | remaining + 1, passIdx, st =>
    if checkCancelled st then some (st, some "Cancelled")
    else if acceptedFlag st then some (st, none)
    else
      match pauseWait env fuel st with
      | none => none
      | some st =>
        match passBody env passIdx st with
        | (st, .thrown m) => some (st, some m)
        | (st, .brk) => some (st, none)
        | (st, .next) => loopGo env fuel remaining (passIdx + 1) st

/-- The best-effort post-deploy stages (lines 577-626): the 30 s spin-up wait,
the browser verification try/catch (which on success overwrites `job.parity`),
and, when the analysis carries a target URL, the differentiation try/catch.
Failures are caught and change nothing. -/
def postDeploy (env : Env) (st : RState) : RState :=
  let st := awaitPoint env st
  let st := awaitPoint env st
  let st := match env.browserVerify with
    | .ok bp => { st with job := { st.job with parity := some bp } }
    | .error _ => st
  if env.targetUrl then
    let st := awaitPoint env st
    match env.diffCheck with
    | .ok _ => { st with job := { st.job with differentiationSet := true } }
    | .error _ => st
  else st

/-- The run state as `processJob` sets it up: fresh job, control entry
initialised to the default triple, abort controller registered. -/
def initialState : RState :=
  { job := initialJob, control := some defaultControl, abortCtrl := true,
    trace := [], t := 0 }

/-- The state during the researcher call: status 'researching',
`maxIterations` pinned to `MAX_ITERATIONS`, suspended at the first await. -/
def researchingState (env : Env) : RState :=
  let st := setStatus initialState .researching
  let st := { st with job := { st.job with maxIterations := some MAX_ITERATIONS } }
  awaitPoint env st

/-- The body of `processJob`'s try block (lines 395-642): research, the
iteration loop, deploy, the post-deploy best-effort stages, then completion
(both completion branches set status 'complete') and the success-path cleanup
that deletes the control entry and the abort controller. -/
def bodyRun (env : Env) (fuel : ℕ) : Option (RState × Option String) :=
  if checkCancelled initialState then some (initialState, some "Cancelled") else
  let st := researchingState env
  match env.research with
  | .error m => some (st, some m)
  | .ok _ =>
    if checkCancelled st then some (st, some "Cancelled") else
    let st := { st with job := { st.job with analysisSet := true } }
    match loopGo env fuel MAX_ITERATIONS 0 st with
    | none => none
    | some (st, some m) => some (st, some m)
    | some (st, none) =>
      if checkCancelled st then some (st, some "Cancelled") else
      let st := setStatus st .deploying
      let st := awaitPoint env st
      match env.deploy with
      | .error m => some (st, some m)
      | .ok dep =>
        let st := { st with job := { st.job with deployment := some dep } }
        let st := if dep.hasWebUrl then postDeploy env st else st
        let st := setStatus st .complete
        some ({ st with control := none, abortCtrl := false }, none)

/-- The catch handler (lines 644-653): an unwind whose message is exactly
'Cancelled' is mapped to status 'cancelled' with the standard message, any
other message to status 'failed' with that message recorded; in both cases
only the abort-controller entry is deleted (the `jobControls` entry is not). -/
def handleOutcome (res : Option (RState × Option String)) : Option RState :=
  match res with
  | none => none
  | some (st, none) => some st
  | some (st, some m) =>
    some { st with
             job := { st.job with
                        status := if m = "Cancelled" then .cancelled else .failed
                        error := some (if m = "Cancelled" then "Cancelled by user"
                                       else m) }
             trace := st.trace ++
                        [if m = "Cancelled" then Status.cancelled else .failed]
             abortCtrl := false }

/-- The `processJob` routine, as the composition of its try block and its
catch handler.  `none` means the run is still parked in a pause wait after
`fuel` poll cycles. -/
def processJob (env : Env) (fuel : ℕ) : Option RState :=
  handleOutcome (bodyRun env fuel)

end Server

/-! ### Concrete run environments for the orchestrator claims -/

namespace Server

/-- A pass in which every collaborator succeeds, tests pass, and the verifier
reports a score below the threshold. -/
def okPass : PassEnv :=
  { gen := .ok ⟨3⟩, test := .ok ⟨true⟩, fixes := .ok 0, retest := .ok ⟨true⟩,
    verify := .ok ⟨50, false, ["search"]⟩ }

/-- A pass whose verifier reports a passing score. -/
def passingPass : PassEnv :=
  { okPass with verify := .ok ⟨95, true, []⟩ }

/-- Run in which the verifier passes on the first pass and the cancel endpoint
is called while the task is suspended in the deployer call (the 5th await),
i.e. while the job status is 'deploying'. -/
def envCancelDuringDeploy : Env :=
  { research := .ok (), targetUrl := false, passes := fun _ => passingPass,
    deploy := .ok ⟨false⟩, browserVerify := .error "offline",
    diffCheck := .error "offline",
    sched := fun t => if t = 4 then some .cancel else none }

/-- Run in which the cancel endpoint is called while the task is suspended in
the first generator call (the 2nd await), i.e. mid-pass after the iteration
counter was already incremented. -/
def envCancelDuringGenerate : Env :=
  { research := .ok (), targetUrl := false, passes := fun _ => okPass,
    deploy := .ok ⟨false⟩, browserVerify := .error "offline",
    diffCheck := .error "offline",
    sched := fun t => if t = 1 then some .cancel else none }

/-- Run in which the generator throws an error whose message happens to be
exactly 'Cancelled', with no cancel signal ever set. -/
def envCollabThrowsCancelledMsg : Env :=
  { research := .ok (), targetUrl := false,
    passes := fun _ => { okPass with gen := .error "Cancelled" },
    deploy := .ok ⟨false⟩, browserVerify := .error "offline",
    diffCheck := .error "offline", sched := fun _ => none }

/-- Run in which the generator throws an ordinary error. -/
def envCollabThrowsBoom : Env :=
  { research := .ok (), targetUrl := false,
    passes := fun _ => { okPass with gen := .error "boom" },
    deploy := .ok ⟨false⟩, browserVerify := .error "offline",
    diffCheck := .error "offline", sched := fun _ => none }

/-- Which required stage collaborator throws. -/
inductive ThrowStage where
  | research | generate | test | fix | retest | verify | deploy
deriving DecidableEq

/-- A run in which exactly the selected required stage throws message `m`:
tests fail only when the fix or re-test stage is to be reached, and when the
deployer is the throwing stage the verifier passes on the first pass so the
loop exits to the deploy stage. -/
def envThrow (sel : ThrowStage) (m : String) : Env :=
  { research := if sel = .research then .error m else .ok ()
    targetUrl := false
    passes := fun _ =>
      { gen := if sel = .generate then .error m else .ok ⟨3⟩
        test := if sel = .test then .error m
                else .ok ⟨!(sel == ThrowStage.fix || sel == ThrowStage.retest)⟩
        fixes := if sel = .fix then .error m else .ok 1
        retest := if sel = .retest then .error m else .ok ⟨true⟩
        verify := if sel = .verify then .error m
                  else .ok ⟨95, sel == ThrowStage.deploy, []⟩ }
    deploy := if sel = .deploy then .error m else .ok ⟨false⟩
    browserVerify := .error "offline"
    diffCheck := .error "offline"
    sched := fun _ => none }

end Server

/-! ### Claims C2, C3 (counterexample), C7, C8 -/

/-- C2: the code violates the claim that a job cancelled while non-terminal
never subsequently becomes 'complete'.  If cancel arrives while the task is
suspended in the deployer call (status 'deploying', non-terminal), the cancel
endpoint does set status 'cancelled' (it appears in the trace) and the
standard error message, but the orchestrator has no cancellation checkpoint
after the deploy stage and unconditionally overwrites the status with
'complete'. -/
theorem claim_C2_code_bug :
    (Server.processJob Server.envCancelDuringDeploy 0).map
        (fun st => st.job.status) = some Server.Status.complete ∧
    (Server.processJob Server.envCancelDuringDeploy 0).map
        (fun st => decide (Server.Status.cancelled ∈ st.trace)) = some true ∧
    (Server.processJob Server.envCancelDuringDeploy 0).map
        (fun st => st.job.error) = some (some "Cancelled by user") := by
  exact ⟨rfl, rfl, rfl⟩

/-- C3 counterexample: a run whose first pass is interrupted by cancellation
after the iteration counter was incremented ends with `iterationCount = 1`
but `iterations = []`, so `len(iterations) = iterationCount` fails once the
loop has exited. -/
theorem claim_C3_counterexample :
    (Server.processJob Server.envCancelDuringGenerate 0).map
        (fun st => (st.job.iterationCount, st.job.iterations.length))
      = some (some 1, 0) ∧
    (Server.processJob Server.envCancelDuringGenerate 0).map
        (fun st => decide (st.job.iterations.length = (st.job.iterationCount).getD 0))
      = some false := by
  exact ⟨rfl, rfl⟩

/-- C7 counterexample: a required-stage exception whose message is exactly
'Cancelled' — thrown by the generator with no cancel signal ever set — is
mapped to status 'cancelled' with the standard message, not to 'failed' with
the exception's message, because the catch handler identifies the
cancellation unwind by message-string equality. -/
theorem claim_C7_counterexample :
    (Server.processJob Server.envCollabThrowsCancelledMsg 0).map
        (fun st => st.job.status) = some Server.Status.cancelled ∧
    (Server.processJob Server.envCollabThrowsCancelledMsg 0).map
        (fun st => st.job.error) = some (some "Cancelled by user") := by
  exact ⟨rfl, rfl⟩

/-- C7 amended: for every required stage collaborator and every exception
message, an uncaught exception ends the job 'failed' with the message recorded
in `error`, unless the message is exactly 'Cancelled' — the catch handler's
test for the cancellation unwind — in which case the job ends 'cancelled' with
the standard message 'Cancelled by user'. -/
theorem claim_C7_amended (sel : Server.ThrowStage) (m : String) :
    (Server.processJob (Server.envThrow sel m) 0).map (fun st => st.job.status)
      = some (if m = "Cancelled" then Server.Status.cancelled
              else Server.Status.failed) ∧
    (Server.processJob (Server.envThrow sel m) 0).map (fun st => st.job.error)
      = some (some (if m = "Cancelled" then "Cancelled by user" else m)) := by
  cases sel <;> exact ⟨rfl, rfl⟩

/-- C7 witness: the amended theorem at a deployer failure with message
'disk full'. -/
theorem claim_C7_witness :
    (Server.processJob (Server.envThrow .deploy "disk full") 0).map
        (fun st => st.job.status)
      = some (if "disk full" = "Cancelled" then Server.Status.cancelled
              else Server.Status.failed) ∧
    (Server.processJob (Server.envThrow .deploy "disk full") 0).map
        (fun st => st.job.error)
      = some (some (if "disk full" = "Cancelled" then "Cancelled by user"
                    else "disk full")) :=
  claim_C7_amended .deploy "disk full"

/-- C8: the claim that the control-signal entry is deleted at any terminal
status fails on the failure path: a run that ends 'failed' (generator throw)
still has its `jobControls` entry — the catch handler deletes only the
abort-controller entry — so the control entry outlives the job. -/
theorem claim_C8_code_bug :
    (Server.processJob Server.envCollabThrowsBoom 0).map
        (fun st => (st.job.status, st.control.isSome, st.abortCtrl))
      = some (Server.Status.failed, true, false) := by
  exact rfl

/-! ## Control endpoints over the server maps

The Express handlers for POST /api/jobs/:id/pause, /continue and /accept
(lines 127-175 of server.ts) act on the global `jobs` and `jobControls` maps.
None of them checks whether the job exists or is terminal: they get-or-default
the control entry, set their flag, write it back, and patch the Job record
only if one exists.  Each responds 200 with a fixed status string.
-/

namespace Server

/-- The two global maps, as association lists keyed by job id. -/
structure ServerState where
  jobs : List (String × Job)
  controls : List (String × Control)
deriving DecidableEq

/-- POST /api/jobs/:id/pause. -/
def pauseEndpoint (jobId : String) (s : ServerState) : ServerState × String :=
  let control := (alookup s.controls jobId).getD defaultControl
  let control := { control with paused := true }
  let controls := upsert s.controls jobId control
  let jobs := match alookup s.jobs jobId with
    | some j => upsert s.jobs jobId { j with pausedFlag := true }
    | none => s.jobs
  (⟨jobs, controls⟩, "paused")

/-- POST /api/jobs/:id/continue. -/
def continueEndpoint (jobId : String) (s : ServerState) : ServerState × String :=
  let control := (alookup s.controls jobId).getD defaultControl
  let control := { control with paused := false }
  let controls := upsert s.controls jobId control
  let jobs := match alookup s.jobs jobId with
    | some j => upsert s.jobs jobId { j with pausedFlag := false }
    | none => s.jobs
  (⟨jobs, controls⟩, "continued")

/-- POST /api/jobs/:id/accept.  On an existing job it also stamps
`acceptedAt` (the wall-clock value is not modelled, only its presence). -/
def acceptEndpoint (jobId : String) (s : ServerState) : ServerState × String :=
  let control := (alookup s.controls jobId).getD defaultControl
  let control := { control with accepted := true }
  let controls := upsert s.controls jobId control
  let jobs := match alookup s.jobs jobId with
    | some j => upsert s.jobs jobId { j with acceptedAt := true }
    | none => s.jobs
  (⟨jobs, controls⟩, "accepted")

end Server

/-! ### Helper lemmas about the map operations -/

/-- Filtering twice with the same key predicate is the same as once. -/
lemma filter_ne_idem {α : Type} (l : List (String × α)) (k : String) :
    ((l.filter (fun p => p.1 ≠ k)).filter (fun p => p.1 ≠ k))
      = l.filter (fun p => p.1 ≠ k) := by
  induction l with
  | nil => rfl
  | cons p t ih =>
    by_cases h : p.1 = k <;> simp [List.filter, h, ih]

/-- Re-inserting the same value at the same key is idempotent. -/
lemma upsert_upsert {α : Type} (l : List (String × α)) (k : String) (v : α) :
    upsert (upsert l k v) k v = upsert l k v := by
  simp [upsert, List.filter, filter_ne_idem]

/-- Looking up the key just upserted yields the inserted value. -/
lemma alookup_upsert {α : Type} (l : List (String × α)) (k : String) (v : α) :
    alookup (upsert l k v) k = some v := by
  simp [alookup, upsert, List.find?]

/-! ### Claims C9 and C10 -/

namespace Server

/-- A job that has already reached the terminal status 'complete', with its
control entry already cleaned up (as the success path of processJob leaves
it). -/
def terminalState : ServerState :=
  ⟨[("job_1", { initialJob with status := .complete })], []⟩

end Server

/-- C9 counterexample: calling pause on a job whose status is terminal
('complete') is not rejected and is not a no-op: the endpoint answers with
the success status 'paused', re-creates a control-signal entry with the
paused flag set, and mutates the Job record's paused marker. -/
theorem claim_C9_counterexample :
    (Server.pauseEndpoint "job_1" Server.terminalState).2 = "paused" ∧
    (Server.pauseEndpoint "job_1" Server.terminalState).1
      ≠ Server.terminalState ∧
    alookup (Server.pauseEndpoint "job_1" Server.terminalState).1.controls
        "job_1" = some ⟨true, false, false⟩ ∧
    ((alookup (Server.pauseEndpoint "job_1" Server.terminalState).1.jobs
        "job_1").map (·.pausedFlag)) = some true := by
  refine ⟨rfl, ?_, rfl, rfl⟩
  decide

/-- C9 amended: pause, continue and accept are idempotent — a second identical
call leaves the server state and response exactly as the first — and they are
never rejected: whatever the job's status (terminal included), they respond
with their success string and set the respective control flag. -/
theorem claim_C9_amended (jobId : String) (s : Server.ServerState) :
    Server.pauseEndpoint jobId (Server.pauseEndpoint jobId s).1
      = Server.pauseEndpoint jobId s ∧
    Server.continueEndpoint jobId (Server.continueEndpoint jobId s).1
      = Server.continueEndpoint jobId s ∧
    Server.acceptEndpoint jobId (Server.acceptEndpoint jobId s).1
      = Server.acceptEndpoint jobId s ∧
    (Server.pauseEndpoint jobId s).2 = "paused" ∧
    (Server.continueEndpoint jobId s).2 = "continued" ∧
    (Server.acceptEndpoint jobId s).2 = "accepted" ∧
    alookup (Server.pauseEndpoint jobId s).1.controls jobId
      = some { (alookup s.controls jobId).getD Server.defaultControl with
                 paused := true } := by
  refine ⟨?_, ?_, ?_, rfl, rfl, rfl, ?_⟩
  · cases h : alookup s.jobs jobId with
    | none => simp [Server.pauseEndpoint, h, alookup_upsert, upsert_upsert]
    | some j => simp [Server.pauseEndpoint, h, alookup_upsert, upsert_upsert]
  · cases h : alookup s.jobs jobId with
    | none => simp [Server.continueEndpoint, h, alookup_upsert, upsert_upsert]
    | some j => simp [Server.continueEndpoint, h, alookup_upsert, upsert_upsert]
  · cases h : alookup s.jobs jobId with
    | none => simp [Server.acceptEndpoint, h, alookup_upsert, upsert_upsert]
    | some j => simp [Server.acceptEndpoint, h, alookup_upsert, upsert_upsert]
  · simp [Server.pauseEndpoint, alookup_upsert]

/-- C9 witness: the amended theorem at the concrete terminal-job state. -/
theorem claim_C9_witness :
    Server.pauseEndpoint "job_1"
        (Server.pauseEndpoint "job_1" Server.terminalState).1
      = Server.pauseEndpoint "job_1" Server.terminalState ∧
    Server.continueEndpoint "job_1"
        (Server.continueEndpoint "job_1" Server.terminalState).1
      = Server.continueEndpoint "job_1" Server.terminalState ∧
    Server.acceptEndpoint "job_1"
        (Server.acceptEndpoint "job_1" Server.terminalState).1
      = Server.acceptEndpoint "job_1" Server.terminalState ∧
    (Server.pauseEndpoint "job_1" Server.terminalState).2 = "paused" ∧
    (Server.continueEndpoint "job_1" Server.terminalState).2 = "continued" ∧
    (Server.acceptEndpoint "job_1" Server.terminalState).2 = "accepted" ∧
    alookup (Server.pauseEndpoint "job_1" Server.terminalState).1.controls
        "job_1"
      = some { (alookup Server.terminalState.controls "job_1").getD
                 Server.defaultControl with paused := true } :=
  claim_C9_amended "job_1" Server.terminalState

/-- C10: calling pause, continue or accept with a job id unknown to the job
registry (and without a control entry) does not fail with NotFound: each call
returns its success response, inserts a fresh control-signal entry for the
unknown id with only its own flag written, and leaves the job registry
unchanged. -/
theorem claim_C10 (jobId : String) (s : Server.ServerState)
    (hj : alookup s.jobs jobId = none)
    (hc : alookup s.controls jobId = none) :
    (Server.pauseEndpoint jobId s).2 = "paused" ∧
    (Server.pauseEndpoint jobId s).1.jobs = s.jobs ∧
    alookup (Server.pauseEndpoint jobId s).1.controls jobId
      = some ⟨true, false, false⟩ ∧
    (Server.continueEndpoint jobId s).2 = "continued" ∧
    (Server.continueEndpoint jobId s).1.jobs = s.jobs ∧
    alookup (Server.continueEndpoint jobId s).1.controls jobId
      = some ⟨false, false, false⟩ ∧
    (Server.acceptEndpoint jobId s).2 = "accepted" ∧
    (Server.acceptEndpoint jobId s).1.jobs = s.jobs ∧
    alookup (Server.acceptEndpoint jobId s).1.controls jobId
      = some ⟨false, true, false⟩ := by
  simp [Server.pauseEndpoint, Server.continueEndpoint, Server.acceptEndpoint,
    hj, hc, alookup_upsert, Server.defaultControl]

/-- C10 witness: the unknown id 'job_missing' against the server state holding
only the terminal job 'job_1'. -/
theorem claim_C10_witness :
    (Server.pauseEndpoint "job_missing" Server.terminalState).2 = "paused" ∧
    (Server.pauseEndpoint "job_missing" Server.terminalState).1.jobs
      = Server.terminalState.jobs ∧
    alookup (Server.pauseEndpoint "job_missing" Server.terminalState).1.controls
        "job_missing" = some ⟨true, false, false⟩ ∧
    (Server.continueEndpoint "job_missing" Server.terminalState).2
      = "continued" ∧
    (Server.continueEndpoint "job_missing" Server.terminalState).1.jobs
      = Server.terminalState.jobs ∧
    alookup (Server.continueEndpoint "job_missing"
        Server.terminalState).1.controls "job_missing"
      = some ⟨false, false, false⟩ ∧
    (Server.acceptEndpoint "job_missing" Server.terminalState).2
      = "accepted" ∧
    (Server.acceptEndpoint "job_missing" Server.terminalState).1.jobs
      = Server.terminalState.jobs ∧
    alookup (Server.acceptEndpoint "job_missing"
        Server.terminalState).1.controls "job_missing"
      = some ⟨false, true, false⟩ :=
  claim_C10 "job_missing" Server.terminalState (by decide) (by decide)

/-! ### Invariant lemmas for the orchestrator

None of the external control endpoints, suspension points, status updates or
best-effort post-deploy stages touches `job.iterationCount` or
`job.iterations`; those two fields change only at the two marked places of a
loop pass.
-/

namespace Server

@[simp] lemma applyAction_iterationCount (a : ExtAction) (st : RState) :
    (applyAction a st).job.iterationCount = st.job.iterationCount := by
  cases a <;> first | rfl | (simp only [applyAction]; split <;> rfl)

@[simp] lemma applyAction_iterations (a : ExtAction) (st : RState) :
    (applyAction a st).job.iterations = st.job.iterations := by
  cases a <;> first | rfl | (simp only [applyAction]; split <;> rfl)

@[simp] lemma applyAction_maxIterations (a : ExtAction) (st : RState) :
    (applyAction a st).job.maxIterations = st.job.maxIterations := by
  cases a <;> first | rfl | (simp only [applyAction]; split <;> rfl)

@[simp] lemma awaitPoint_iterationCount (env : Env) (st : RState) :
    (awaitPoint env st).job.iterationCount = st.job.iterationCount := by
  unfold awaitPoint
  cases h : env.sched st.t <;> simp [h]

@[simp] lemma awaitPoint_iterations (env : Env) (st : RState) :
    (awaitPoint env st).job.iterations = st.job.iterations := by
  unfold awaitPoint
  cases h : env.sched st.t <;> simp [h]

@[simp] lemma awaitPoint_maxIterations (env : Env) (st : RState) :
    (awaitPoint env st).job.maxIterations = st.job.maxIterations := by
  unfold awaitPoint
  cases h : env.sched st.t <;> simp [h]

@[simp] lemma setStatus_iterationCount (st : RState) (s : Status) :
    (setStatus st s).job.iterationCount = st.job.iterationCount := rfl

@[simp] lemma setStatus_iterations (st : RState) (s : Status) :
    (setStatus st s).job.iterations = st.job.iterations := rfl

@[simp] lemma setStatus_maxIterations (st : RState) (s : Status) :
    (setStatus st s).job.maxIterations = st.job.maxIterations := rfl

/-- The fix phase never touches the iteration counter or the history. -/
lemma fixPhase_pres (env : Env) (i : ℕ) (tst : TestResult) (st : RState) :
    (fixPhase env i tst st).1.job.iterationCount = st.job.iterationCount ∧
    (fixPhase env i tst st).1.job.iterations = st.job.iterations := by
  unfold fixPhase
  split
  · exact ⟨rfl, rfl⟩
  · split
    · simp
    · split <;> simp

/-- The pause wait never touches the iteration counter or the history. -/
lemma pauseWait_pres (env : Env) :
    ∀ (fuel : ℕ) (st st' : RState), pauseWait env fuel st = some st' →
      st'.job.iterationCount = st.job.iterationCount ∧
      st'.job.iterations = st.job.iterations := by
  intro fuel
  induction fuel with
  | zero =>
    intro st st' h
    unfold pauseWait at h
    split at h
    · simp at h
    · replace h := Option.some.inj h
      subst h
      exact ⟨rfl, rfl⟩
  | succ fuel ih =>
    intro st st' h
    simp only [pauseWait] at h
    split at h
    · split at h
      · obtain ⟨h1, h2⟩ := ih _ _ h
        simp at h1 h2
        exact ⟨h1, h2⟩
      · replace h := Option.some.inj h
        subst h
        simp
    · replace h := Option.some.inj h
      subst h
      exact ⟨rfl, rfl⟩


/-! ### Orchestration lemmas and claims C1, C3 (amended) -/


@[simp] lemma fixPhase_fst_iterationCount (env : Env) (i : ℕ)
    (tst : TestResult) (st : RState) :
    (fixPhase env i tst st).1.job.iterationCount = st.job.iterationCount :=
  (fixPhase_pres env i tst st).1

@[simp] lemma fixPhase_fst_iterations (env : Env) (i : ℕ)
    (tst : TestResult) (st : RState) :
    (fixPhase env i tst st).1.job.iterations = st.job.iterations :=
  (fixPhase_pres env i tst st).2

lemma passBody_count_len (env : Env) (i : ℕ) (st st' : RState) (sig : LoopSig)
    (heq : passBody env i st = (st', sig))
    (hsig : sig = .next ∨ sig = .brk) :
    st'.job.iterationCount = some (i + 1) ∧
    st'.job.iterations.length = st.job.iterations.length + 1 := by
  simp only [passBody] at heq
  generalize (if i + 1 = 1 then Status.generating else Status.iterating) = s0 at heq
  split at heq
  · injection heq with e1 e2; subst e1; subst e2; exact absurd hsig (by simp)
  · cases hg : (env.passes i).gen with
    | error m =>
      rw [hg] at heq; simp only [] at heq
      injection heq with e1 e2; subst e1; subst e2; exact absurd hsig (by simp)
    | ok gen =>
      rw [hg] at heq; simp only [] at heq
      split at heq
      · injection heq with e1 e2; subst e1; subst e2; exact absurd hsig (by simp)
      · cases ht : (env.passes i).test with
        | error m =>
          rw [ht] at heq; simp only [] at heq
          injection heq with e1 e2; subst e1; subst e2
          exact absurd hsig (by simp)
        | ok tests =>
          rw [ht] at heq; simp only [] at heq
          split at heq
          · injection heq with e1 e2; subst e1; subst e2
            exact absurd hsig (by simp)
          · split at heq
            · injection heq with e1 e2; subst e1; subst e2
              exact absurd hsig (by simp)
            · split at heq
              · injection heq with e1 e2; subst e1; subst e2
                exact absurd hsig (by simp)
              · cases hv : (env.passes i).verify with
                | error m =>
                  rw [hv] at heq; simp only [] at heq
                  injection heq with e1 e2; subst e1; subst e2
                  exact absurd hsig (by simp)
                | ok par =>
                  rw [hv] at heq; simp only [] at heq
                  split at heq <;>
                    (injection heq with e1 e2; subst e1; subst e2;
                     exact ⟨by simp [pushHistory], by simp [pushHistory]⟩)

lemma loopGo_inv (env : Env) (fuel : ℕ) :
    ∀ (r i : ℕ) (st st' : RState),
      st.job.iterations.length = i →
      st.job.iterationCount.getD 0 = i →
      loopGo env fuel r i st = some (st', none) →
      st'.job.iterations.length = st'.job.iterationCount.getD 0 := by
  intro r
  induction r with
  | zero =>
    intro i st st' h1 h2 h
    simp only [loopGo] at h
    injection h with h
    injection h with e1 e2
    subst e1
    rw [h1, h2]
  | succ r ih =>
    intro i st st' h1 h2 h
    simp only [loopGo] at h
    split at h
    · simp at h
    · split at h
      · injection h with h
        injection h with e1 e2
        subst e1
        rw [h1, h2]
      · split at h
        · simp at h
        · rename_i st1 hpw
          rcases hpb : passBody env i st1 with ⟨st2, sig⟩
          rw [hpb] at h
          obtain ⟨hpw1, hpw2⟩ := pauseWait_pres env fuel st st1 hpw
          cases sig with
          | thrown m => simp at h
          | brk =>
            simp only [] at h
            injection h with h
            injection h with e1 e2
            subst e1
            obtain ⟨hc1, hc2⟩ :=
              passBody_count_len env i st1 st2 .brk hpb (Or.inr rfl)
            rw [hc1, hc2, hpw2, h1]
            rfl
          | next =>
            simp only [] at h
            obtain ⟨hc1, hc2⟩ :=
              passBody_count_len env i st1 st2 .next hpb (Or.inl rfl)
            exact ih (i + 1) st2 st' (by rw [hc2, hpw2, h1]) (by rw [hc1]; rfl) h

@[simp] lemma postDeploy_iterationCount (env : Env) (st : RState) :
    (postDeploy env st).job.iterationCount = st.job.iterationCount := by
  unfold postDeploy
  cases env.browserVerify <;> by_cases h : env.targetUrl <;>
    cases env.diffCheck <;> simp [h]

@[simp] lemma postDeploy_iterations (env : Env) (st : RState) :
    (postDeploy env st).job.iterations = st.job.iterations := by
  unfold postDeploy
  cases env.browserVerify <;> by_cases h : env.targetUrl <;>
    cases env.diffCheck <;> simp [h]

/-- A run of the try block that finishes without an unwind satisfies
`len(iterations) = iterationCount` on its final state. -/
lemma bodyRun_complete_inv (env : Env) (fuel : ℕ) (st0 : RState)
    (h : bodyRun env fuel = some (st0, none)) :
    st0.job.iterations.length = st0.job.iterationCount.getD 0 := by
  simp only [bodyRun] at h
  split at h
  · simp at h
  · cases hr : env.research with
    | error m =>
      rw [hr] at h; simp only [] at h
      simp at h
    | ok u =>
      rw [hr] at h; simp only [] at h
      split at h
      · simp at h
      · split at h
        · simp at h
        · simp at h
        · rename_i stL hloop
          have hinv := loopGo_inv env fuel MAX_ITERATIONS 0 _ stL
            (by simp [Server.researchingState, Server.initialState,
              Server.initialJob, Server.setStatus])
            (by simp [Server.researchingState, Server.initialState,
              Server.initialJob, Server.setStatus]) hloop
          split at h
          · simp at h
          · cases hd : env.deploy with
            | error m =>
              rw [hd] at h; simp only [] at h
              simp at h
            | ok dep =>
              rw [hd] at h; simp only [] at h
              injection h with h
              injection h with e1 e2
              subst e1
              split <;> simp [hinv]

def envQuickOk : Env :=
  { research := .ok (), targetUrl := false, passes := fun _ => passingPass,
    deploy := .ok ⟨false⟩, browserVerify := .error "offline",
    diffCheck := .error "offline", sched := fun _ => none }

/-- All collaborators of one pass succeed and the verifier stays below
threshold. -/
def PassOk (pe : PassEnv) : Prop :=
  (∃ g, pe.gen = .ok g) ∧ (∃ t, pe.test = .ok t) ∧ (∃ f, pe.fixes = .ok f) ∧
  (∃ r, pe.retest = .ok r) ∧ ∃ p, pe.verify = .ok p ∧ p.passesThreshold = false

lemma awaitPoint_noSched (env : Env) (hs : ∀ k, env.sched k = none)
    (st : RState) : awaitPoint env st = { st with t := st.t + 1 } := by
  simp [awaitPoint, hs]

lemma checkCancelled_default (st : RState)
    (hc : st.control = some defaultControl) : checkCancelled st = false := by
  simp [checkCancelled, hc, defaultControl]

lemma acceptedFlag_default (st : RState)
    (hc : st.control = some defaultControl) : acceptedFlag st = false := by
  simp [acceptedFlag, hc, defaultControl]

lemma pausedGuard_default (st : RState)
    (hc : st.control = some defaultControl) : pausedGuard st = false := by
  simp [pausedGuard, hc, defaultControl]

lemma pauseWait_noPause (env : Env) (fuel : ℕ) (st : RState)
    (hg : pausedGuard st = false) : pauseWait env fuel st = some st := by
  cases fuel <;> simp [pauseWait, hg]

/-- Under an empty schedule and an all-success pass environment, a pass ends
in `next`, keeps the control entry, the abort flag and `maxIterations`, and
only appends to the trace. -/
lemma passBody_ok (env : Env) (hs : ∀ k, env.sched k = none) (i : ℕ)
    (hp : PassOk (env.passes i)) (st : RState)
    (hc : st.control = some defaultControl) :
    (passBody env i st).2 = LoopSig.next ∧
    (passBody env i st).1.control = some defaultControl ∧
    (passBody env i st).1.abortCtrl = st.abortCtrl ∧
    (passBody env i st).1.job.maxIterations = st.job.maxIterations ∧
    ∃ mid, (passBody env i st).1.trace = st.trace ++ mid := by
  obtain ⟨⟨g, hg⟩, ⟨tst, ht⟩, ⟨f, hf⟩, ⟨r, hrt⟩, ⟨p, hv, hpf⟩⟩ := hp
  cases htp : tst.passed <;>
    (refine ⟨?_, ?_, ?_, ?_, ?_⟩ <;>
      [skip; skip; skip; skip;
       exact ⟨_, by
        simp [passBody, fixPhase, pushHistory, hg, ht, hf, hrt, hv, hpf, htp,
          checkCancelled, acceptedFlag, hc, defaultControl,
          awaitPoint_noSched env hs, setStatus, List.append_assoc]⟩] <;>
      simp [passBody, fixPhase, pushHistory, hg, ht, hf, hrt, hv, hpf, htp,
        checkCancelled, acceptedFlag, hc, defaultControl,
        awaitPoint_noSched env hs, setStatus, List.append_assoc])
/-- Under an empty schedule with all-success below-threshold passes, the loop
runs all `r` remaining passes: it ends normally having incremented the
counter to `i + r`, appended `r` history entries, kept the control entry,
abort flag and `maxIterations`, and only appended to the trace. -/
lemma loopGo_ok (env : Env) (hs : ∀ k, env.sched k = none)
    (hp : ∀ n, PassOk (env.passes n)) (fuel : ℕ) :
    ∀ (r i : ℕ) (st : RState), st.control = some defaultControl →
      ∃ st', loopGo env fuel r i st = some (st', none) ∧
        st'.control = some defaultControl ∧
        st'.abortCtrl = st.abortCtrl ∧
        st'.job.maxIterations = st.job.maxIterations ∧
        st'.job.iterationCount
          = (if r = 0 then st.job.iterationCount else some (i + r)) ∧
        st'.job.iterations.length = st.job.iterations.length + r ∧
        ∃ mid, st'.trace = st.trace ++ mid := by
  intro r
  induction r with
  | zero =>
    intro i st hc
    exact ⟨st, by simp [loopGo], hc, rfl, rfl, by simp, by simp,
      ⟨[], by simp⟩⟩
  | succ r ih =>
    intro i st hc
    obtain ⟨hsig, hco, hab, hmax, mid1, htr⟩ := passBody_ok env hs i (hp i) st hc
    have hpair : passBody env i st = ((passBody env i st).1, LoopSig.next) := by
      rw [← hsig]
    obtain ⟨hc1, hc2⟩ :=
      passBody_count_len env i st (passBody env i st).1 .next hpair (Or.inl rfl)
    obtain ⟨st2, hrec, hco2, hab2, hmax2, hcount2, hlen2, mid2, htr2⟩ :=
      ih (i + 1) (passBody env i st).1 hco
    refine ⟨st2, ?_, hco2, by rw [hab2, hab], by rw [hmax2, hmax], ?_, ?_, ?_⟩
    · simp only [loopGo, checkCancelled_default st hc,
        acceptedFlag_default st hc,
        pauseWait_noPause env fuel st (pausedGuard_default st hc)]
      rw [hpair]
      exact hrec
    · rw [if_neg (Nat.succ_ne_zero r)]
      by_cases hr : r = 0
      · subst hr
        simp [hcount2, hc1]
      · rw [if_neg hr] at hcount2
        rw [hcount2]
        congr 1
        omega
    · rw [hlen2, hc2]
      omega
    · exact ⟨mid1 ++ mid2, by rw [htr2, htr, List.append_assoc]⟩
@[simp] lemma postDeploy_maxIterations (env : Env) (st : RState) :
    (postDeploy env st).job.maxIterations = st.job.maxIterations := by
  unfold postDeploy
  cases env.browserVerify <;> by_cases h : env.targetUrl <;>
    cases env.diffCheck <;> simp [h]

lemma postDeploy_trace_noSched (env : Env) (hs : ∀ k, env.sched k = none)
    (st : RState) : (postDeploy env st).trace = st.trace := by
  unfold postDeploy
  cases env.browserVerify <;> by_cases h : env.targetUrl <;>
    cases env.diffCheck <;> simp [h, awaitPoint_noSched env hs]

/-- Under an empty schedule, successful research and deploy, and all-success
below-threshold passes, the try block runs to completion: all five loop
passes execute, the job ends 'complete' having visited 'deploying', and the
success-path cleanup removes the control and abort entries. -/
lemma bodyRun_ok (env : Env) (fuel : ℕ) (hs : ∀ k, env.sched k = none)
    (hr : env.research = .ok ()) (hp : ∀ n, PassOk (env.passes n))
    (d : DeployResult) (hd : env.deploy = .ok d) :
    ∃ st', bodyRun env fuel = some (st', none) ∧
      st'.job.status = Status.complete ∧
      st'.job.iterationCount = some MAX_ITERATIONS ∧
      st'.job.maxIterations = some MAX_ITERATIONS ∧
      st'.job.iterations.length = MAX_ITERATIONS ∧
      st'.control = none ∧
      st'.abortCtrl = false ∧
      ∃ pre, st'.trace = pre ++ [Status.deploying, Status.complete] := by
  have hcE : ({ researchingState env with
      job := { (researchingState env).job with analysisSet := true } }
        : RState).control = some defaultControl := by
    simp [researchingState, initialState, awaitPoint_noSched env hs, setStatus]
  obtain ⟨stL, hloop, hcoL, habL, hmaxL, hcountL, hlenL, midL, htrL⟩ :=
    loopGo_ok env hs hp fuel MAX_ITERATIONS 0 _ hcE
  have h1 : checkCancelled (researchingState env) = false := by
    simp [checkCancelled, researchingState, initialState,
      awaitPoint_noSched env hs, setStatus, defaultControl]
  have h2 : checkCancelled stL = false := checkCancelled_default stL hcoL
  have hfin : bodyRun env fuel = some
      ({ setStatus
          (if d.hasWebUrl then
            postDeploy env
              { awaitPoint env (setStatus stL .deploying) with
                  job := { (awaitPoint env (setStatus stL .deploying)).job with
                             deployment := some d } }
          else
              { awaitPoint env (setStatus stL .deploying) with
                  job := { (awaitPoint env (setStatus stL .deploying)).job with
                             deployment := some d } })
          .complete with control := none, abortCtrl := false }, none) := by
    simp only [bodyRun, hr, h1, h2, hd, hloop, Bool.false_eq_true, if_false]
    rfl
  refine ⟨_, hfin, by simp [setStatus], ?_, ?_, ?_, rfl, rfl, ?_⟩
  · by_cases hweb : d.hasWebUrl = true <;>
      simp [hweb, setStatus, hcountL, MAX_ITERATIONS]
  · by_cases hweb : d.hasWebUrl = true <;>
      simp [hweb, setStatus, hmaxL, researchingState, initialState,
        initialJob]
  · by_cases hweb : d.hasWebUrl = true <;>
      simp [hweb, setStatus, hlenL, researchingState, initialState,
        initialJob, MAX_ITERATIONS]
  · refine ⟨stL.trace, ?_⟩
    by_cases hweb : d.hasWebUrl = true <;>
      simp [hweb, setStatus, postDeploy_trace_noSched env hs,
        awaitPoint_noSched env hs, List.append_assoc]

def envAllOk : Env :=
  { research := .ok (), targetUrl := false, passes := fun _ => okPass,
    deploy := .ok ⟨false⟩, browserVerify := .error "offline",
    diffCheck := .error "offline", sched := fun _ => none }


end Server

/-- C1: for every run whose parity reports never pass the threshold, whose
control signals are never touched, and whose collaborators never throw, the
iteration loop runs exactly `MAX_ITERATIONS = 5` passes — `iterationCount`
stops exactly at `maxIterations` with one history entry per pass — and the
job still transitions to 'deploying' and then to 'complete'. -/
theorem claim_C1 (env : Server.Env) (fuel : ℕ)
    (hs : ∀ k, env.sched k = none)
    (hr : env.research = .ok ())
    (hp : ∀ n, Server.PassOk (env.passes n))
    (hd : ∃ d, env.deploy = .ok d) :
    ∃ st, Server.processJob env fuel = some st ∧
      st.job.iterationCount = some Server.MAX_ITERATIONS ∧
      st.job.maxIterations = some Server.MAX_ITERATIONS ∧
      st.job.iterations.length = Server.MAX_ITERATIONS ∧
      st.job.status = Server.Status.complete ∧
      ∃ pre, st.trace
        = pre ++ [Server.Status.deploying, Server.Status.complete] := by
  obtain ⟨d, hd⟩ := hd
  obtain ⟨st', hb, hstat, hcount, hmax, hlen, hctl, hab, pre, htr⟩ :=
    Server.bodyRun_ok env fuel hs hr hp d hd
  exact ⟨st', by simp [Server.processJob, Server.handleOutcome, hb],
    hcount, hmax, hlen, hstat, pre, htr⟩

/-- C1 witness: the concrete all-success below-threshold environment. -/
theorem claim_C1_witness :
    ∃ st, Server.processJob Server.envAllOk 0 = some st ∧
      st.job.iterationCount = some Server.MAX_ITERATIONS ∧
      st.job.maxIterations = some Server.MAX_ITERATIONS ∧
      st.job.iterations.length = Server.MAX_ITERATIONS ∧
      st.job.status = Server.Status.complete ∧
      ∃ pre, st.trace
        = pre ++ [Server.Status.deploying, Server.Status.complete] :=
  claim_C1 Server.envAllOk 0 (fun _ => rfl) rfl
    (fun _ => ⟨⟨⟨3⟩, rfl⟩, ⟨⟨true⟩, rfl⟩, ⟨0, rfl⟩, ⟨⟨true⟩, rfl⟩,
      ⟨⟨50, false, ["search"]⟩, rfl, rfl⟩⟩)
    ⟨⟨false⟩, rfl⟩

/-- C3 amended: once `processJob` finishes with status 'complete' — i.e. the
pre-deploy iteration loop exited without an exception unwind — the length of
`job.iterations` equals `job.iterationCount` (exactly one entry per completed
pass); a pass interrupted mid-way increments the counter without appending an
entry and the job then ends 'failed' or 'cancelled', not 'complete'. -/
theorem claim_C3_amended (env : Server.Env) (fuel : ℕ) (st : Server.RState)
    (h : Server.processJob env fuel = some st)
    (hc : st.job.status = Server.Status.complete) :
    st.job.iterations.length = st.job.iterationCount.getD 0 := by
  unfold Server.processJob Server.handleOutcome at h
  rcases hb : Server.bodyRun env fuel with _ | ⟨st0, m⟩
  · rw [hb] at h; simp at h
  · rw [hb] at h
    cases m with
    | none =>
      simp only [] at h
      injection h with e1
      subst e1
      exact Server.bodyRun_complete_inv env fuel st0 hb
    | some msg =>
      simp only [] at h
      injection h with e1
      subst e1
      simp only [] at hc
      split at hc <;> simp at hc

/-- C3 witness: the amended theorem on a concrete single-pass successful
run. -/
theorem claim_C3_witness :
    ((Server.processJob Server.envQuickOk 0).getD
        ⟨Server.initialJob, none, false, [], 0⟩).job.iterations.length
      = ((Server.processJob Server.envQuickOk 0).getD
        ⟨Server.initialJob, none, false, [], 0⟩).job.iterationCount.getD 0 :=
  claim_C3_amended Server.envQuickOk 0
    ((Server.processJob Server.envQuickOk 0).getD
      ⟨Server.initialJob, none, false, [], 0⟩) (by rfl) (by rfl)
